import Mathlib

/-!
Shallow embedding of `tools/sync/projadm.py` (OpenGrok project
administration wrapper).

The script is sequential orchestration of network calls to a
configuration web service, invocations of an external merge tool, and
filesystem copy/delete operations, all guarded by a dry-run flag
(`doit`) and a non-blocking file lock.  We embed each Python function as
a Lean function from an environment oracle (responses of the black-box
collaborators: the web service, the command runner, the filesystem
predicates) and a filesystem state to a result carrying

  * an `Outcome` (normal return, `sys.exit(code)`, or a raised
    exception),
  * the ordered list of observable `Event`s (log lines, network calls,
    subprocess executions, filesystem mutations), and
  * the final filesystem state.

Python truthiness on optional strings collapses `None` and the empty
string; the embedding therefore uses `String` with the empty string
standing for an absent value wherever the script only ever tests
truthiness (`roconfig`, `uri`, the resolved merge command, the fetched
configuration text).  The value list returned by `get_config_value` is
kept as a `List String` (the empty list standing for a falsy or missing
response) because the script indexes into it.

Scoped temporary files (`tempfile.NamedTemporaryFile`) are modelled as
name allocation from the environment (fields `tmpCur`, `tmpMerged`);
creating and deleting the scoped temporary is resource acquisition, not
a durable mutation, so only writes to the file surface as `fsWrite`
events; the file is erased from the filesystem state when its scope
ends, mirroring the context-manager cleanup.
-/

namespace Projadm

/-- Embedding of `os.path.join` for two components: an absolute second
component replaces the first; otherwise a separator is inserted unless
the first component is empty or already ends with one. -/
def pjoin (a b : String) : String :=
  if b.toList.head? = some '/' then b
  else if a = "" ∨ a.toList.getLast? = some '/' then a ++ b
  else a ++ "/" ++ b

/-- Embedding of Python `str.rstrip()`: drop trailing whitespace. -/
def rstrip (s : String) : String :=
  String.mk ((s.toList.reverse.dropWhile Char.isWhitespace).reverse)

/-- Observable events of one run: log lines, network calls to the
configuration service, subprocess executions and filesystem
mutations. -/
inductive Event where
  | log (msg : String)
  | printHelp
  | netGetConfiguration
  | netSetConfiguration (path : String)
  | netAddProject (name : String)
  | netDeleteProject (name : String)
  | netGetConfigValue (key : String)
  | subprocessExec (args : List String)
  | fsWrite (path : String) (content : String)
  | fsCopyFile (src : String) (dst : String)
  | fsRmtree (dirPath : String)
  deriving DecidableEq, Repr

/-- An event is a pure log line. -/
def Event.isLog : Event → Bool
  | .log _ => true
  | _ => false

/-- Result of running one external command (`command.Command`): whether
it finished normally, its exit code, and the captured output. -/
structure CmdResult where
  finished : Bool
  retcode : Int
  output : String
  deriving DecidableEq, Repr

/-- Filesystem state: maps a path to the content of the regular file at
that path, if one exists (`path.isfile` is a `some` test). -/
abbrev FS := String → Option String

/-- Write `content` to the file at path `p`. -/
def FS.set (fs : FS) (p : String) (content : String) : FS :=
  fun q => if q = p then some content else fs q

/-- Remove the file at path `p` (scope exit of a named temporary). -/
def FS.erase (fs : FS) (p : String) : FS :=
  fun q => if q = p then none else fs q

/-- Environment oracle for the black-box collaborators.  The web
service module (`opengrok.py`), the command runner (`command.py`), the
command lookup helper (`utils.get_command`) and the lock library are
not part of the script; their responses are inputs of the model.

Modelled from the spec: `get_configuration(uri) -> text` (empty string
standing for a falsy or failed fetch), `get_config_value(key, uri) ->
value-list` (empty list standing for a falsy or missing response), the
command runner capturing standard output, the command lookup helper
resolving the merge executable (empty string standing for failure), and
non-blocking lock acquisition that fails exactly when the lock is
already held. -/
structure Env where
  isdir : String → Bool
  getCommandResp : String
  lockHeld : Bool
  getConfigurationResp : String
  getConfigValueResp : String → List String
  runCommand : List String → CmdResult
  copyFails : String → String → Bool
  tmpCur : String
  tmpMerged : String

/-- Outcome of a run: normal return, `sys.exit(code)`, or a raised
(uncaught) exception with its message. -/
inductive Outcome (α : Type) where
  | ok (a : α)
  | exited (code : Nat)
  | raised (msg : String)
  deriving DecidableEq, Repr

/-- Result of one embedded call: outcome, ordered event trace, final
filesystem state. -/
structure Res (α : Type) where
  out : Outcome α
  events : List Event
  fs : FS

/-- A result with no outcome value, no events and an unchanged
filesystem. -/
def Res.pure (fs : FS) : Res Unit :=
  { out := .ok (), events := [], fs := fs }

/-- Sequencing: run the continuation only when the first result
returned normally; `sys.exit` and raised exceptions propagate. -/
def Res.andThen (r : Res Unit) (f : FS → Res Unit) : Res Unit :=
  match r.out with
  | .ok _ =>
    let s := f r.fs
    { out := s.out, events := r.events ++ s.events, fs := s.fs }
  | .exited c => { out := .exited c, events := r.events, fs := r.fs }
  | .raised m => { out := .raised m, events := r.events, fs := r.fs }

/-- Embedding of Python `''.join(x)` as used on the captured command
output and fetched text: the identity on a string, and a `TypeError`
when applied to `None` (the value `exec_command` returns in dry-run
mode). -/
def pyJoin : Option String → Outcome String
  | some s => .ok s
  | none => .raised "TypeError: can only join an iterable"

/-- Embedding of the guarded temporary-file write
`if doit: f.write(bytearray(''.join(content), "UTF-8"))` appearing at
lines 128-129 and 143-144 of `projadm.py` (the file is fresh, so the
write determines its content). -/
def temp_write (doit : Bool) (name : String) (content : Option String)
    (fs : FS) : Res Unit :=
  if doit then
    match pyJoin content with
    | .ok t => { out := .ok (), events := [.fsWrite name t], fs := FS.set fs name t }
    | .raised m => { out := .raised m, events := [], fs := fs }
    | .exited c => { out := .exited c, events := [], fs := fs }
  else
    { out := .ok (), events := [], fs := fs }

/-- Embedding of `exec_command` (projadm.py lines 53-68): in dry-run
mode log the command and return `None`; otherwise execute it, and on
abnormal termination or a non-zero exit code log the message and the
captured output and exit 1, else return the captured output. -/
def exec_command (doit : Bool) (env : Env) (cmd : List String)
    (msg : String) (fs : FS) : Res (Option String) :=
  if doit then
    let r := env.runCommand cmd
    if ¬ r.finished ∨ r.retcode ≠ 0 then
      { out := .exited 1,
        events := [.subprocessExec cmd, .log msg, .log r.output], fs := fs }
    else
      { out := .ok (some r.output), events := [.subprocessExec cmd], fs := fs }
  else
    { out := .ok none, events := [.log (String.intercalate " " cmd)], fs := fs }

/-- Embedding of `get_config_file` (projadm.py lines 71-76): the fixed
configuration file path under the instance base directory. -/
def get_config_file (basedir : String) : String :=
  pjoin (pjoin basedir "etc") "configuration.xml"

/-- Embedding of `install_config` (projadm.py lines 79-101): in dry-run
mode only log; otherwise copy the whole content of `src` to `dst`,
exiting 1 on a permission or I/O failure (a missing source file raises
`OSError` inside `shutil.copyfile`). -/
def install_config (doit : Bool) (env : Env) (src dst : String)
    (fs : FS) : Res Unit :=
  if doit then
    let evs := [Event.log ("Copying " ++ src ++ " to " ++ dst)]
    if env.copyFails src dst then
      { out := .exited 1,
        events := evs ++ [.fsCopyFile src dst,
                          .log ("Failed to copy " ++ src ++ " to " ++ dst)],
        fs := fs }
    else
      match fs src with
      | none =>
        { out := .exited 1,
          events := evs ++ [.fsCopyFile src dst,
                            .log ("Failed to copy " ++ src ++ " to " ++ dst)],
          fs := fs }
      | some c =>
        { out := .ok (), events := evs ++ [.fsCopyFile src dst],
          fs := FS.set fs dst c }
  else
    { out := .ok (), events := [.log ("Not copying " ++ src ++ " to " ++ dst)],
      fs := fs }

/-- Embedding of `config_refresh` (projadm.py lines 104-145): require
the configuration file to exist, fetch the current configuration when
`doit` (exiting 1 on a falsy response), stage it in a scoped temporary
file, and either install it directly (no read-only configuration) or
pipe it through the external merge tool and install the captured merge
output staged in a second scoped temporary file. -/
def config_refresh (doit : Bool) (env : Env) (basedir roconfig configmerge : String)
    (fs : FS) : Res Unit :=
  let main_config := get_config_file basedir
  match fs main_config with
  | none =>
    { out := .exited 1,
      events := [.log ("file " ++ main_config ++ " does not exist")], fs := fs }
  | some _ =>
    -- `if doit: current_config = get_configuration(...); if not current_config: sys.exit(1)`
    if doit ∧ env.getConfigurationResp = "" then
      { out := .exited 1, events := [.netGetConfiguration], fs := fs }
    else
      let current_config : Option String :=
        if doit then some env.getConfigurationResp else none
      let evs0 : List Event :=
        (if doit then [Event.netGetConfiguration] else []) ++
        [Event.log ("Temporary file for current config: " ++ env.tmpCur)]
      let w := temp_write doit env.tmpCur current_config (FS.set fs env.tmpCur "")
      let body : Res Unit :=
        match w.out with
        | .exited c => { out := .exited c, events := w.events, fs := w.fs }
        | .raised m => { out := .raised m, events := w.events, fs := w.fs }
        | .ok _ =>
          if roconfig = "" then
            let i := install_config doit env env.tmpCur main_config w.fs
            { out := i.out,
              events := w.events ++ [Event.log "Refreshing configuration"] ++ i.events,
              fs := i.fs }
          else
            let m := exec_command doit env [configmerge, roconfig, env.tmpCur]
                       "cannot merge configuration" w.fs
            let evsPre := w.events ++
              [Event.log "Refreshing configuration (merging with read-only config)"]
            match m.out with
            | .exited c =>
              { out := .exited c, events := evsPre ++ m.events, fs := m.fs }
            | .raised s =>
              { out := .raised s, events := evsPre ++ m.events, fs := m.fs }
            | .ok merged =>
              let evsm := m.events ++
                [Event.log ("Temporary file for merged config: " ++ env.tmpMerged)]
              let inner : Res Unit :=
                if doit then
                  let w2 := temp_write doit env.tmpMerged merged
                              (FS.set m.fs env.tmpMerged "")
                  match w2.out with
                  | .ok _ =>
                    let i := install_config doit env env.tmpMerged main_config w2.fs
                    { out := i.out, events := w2.events ++ i.events, fs := i.fs }
                  | .exited c => { out := .exited c, events := w2.events, fs := w2.fs }
                  | .raised s => { out := .raised s, events := w2.events, fs := w2.fs }
                else
                  { out := .ok (), events := [], fs := FS.set m.fs env.tmpMerged "" }
              { out := inner.out, events := evsPre ++ evsm ++ inner.events,
                fs := FS.erase inner.fs env.tmpMerged }
      { out := body.out, events := evs0 ++ body.events,
        fs := FS.erase body.fs env.tmpCur }

/-- Embedding of `project_add` (projadm.py lines 148-159): log, and
call the remote add-project endpoint only when `doit`. -/
def project_add (doit : Bool) (project : String) (fs : FS) : Res Unit :=
  { out := .ok (),
    events := [Event.log ("Adding project " ++ project)] ++
              (if doit then [Event.netAddProject project] else []),
    fs := fs }

/-- Embedding of `project_delete` (projadm.py lines 162-193): raise on
an empty project name, call the remote delete-project endpoint when
`doit`, look up the source root (unconditionally), raise on a missing
or empty source root, and recursively remove `sourceRoot/name` when
`doit`. -/
def project_delete (doit : Bool) (env : Env) (project : String)
    (fs : FS) : Res Unit :=
  if project = "" then
    { out := .raised "invalid call to project_delete(): missing project",
      events := [], fs := fs }
  else
    let evs1 := [Event.log ("Deleting project " ++ project ++ " and its index data")]
    let evs2 := evs1 ++ (if doit then [Event.netDeleteProject project] else [])
    let evs3 := evs2 ++ [Event.netGetConfigValue "sourceRoot"]
    match env.getConfigValueResp "sourceRoot" with
    | [] =>
      { out := .raised "Could not get source root", events := evs3, fs := fs }
    | r :: _ =>
      let src_root := rstrip r
      let evs4 := evs3 ++ [Event.log ("Source root = " ++ src_root)]
      if src_root = "" then
        { out := .raised "source root empty", events := evs4, fs := fs }
      else
        let sourcedir := pjoin src_root project
        let evs5 := evs4 ++ [Event.log ("Removing directory tree " ++ sourcedir)]
        if doit then
          { out := .ok (),
            events := evs5 ++ [Event.log ("Removing source code under " ++ sourcedir),
                               Event.fsRmtree sourcedir],
            fs := fs }
        else
          { out := .ok (), events := evs5, fs := fs }

/-- Command-line arguments after parsing.  `roconfig` and `configmerge`
use the empty string for an absent value (the script only ever tests
their truthiness); `add` and `delete` use the empty list (argparse
`nargs` guarantees a selected list is non-empty); `noop` stores the
`doit` value (the flag defaults to true, passing `-n` stores false). -/
structure Args where
  debug : Bool
  base : String
  roconfig : String
  uri : String
  configmerge : String
  upload : Bool
  noop : Bool
  add : List String
  delete : List String
  refresh : Bool

/-- Embedding of the base-directory validation (projadm.py lines
242-250): skipped when the base is falsy, otherwise exit 1 unless it is
a directory. -/
def check_base (args : Args) (env : Env) (fs : FS) : Res Unit :=
  if args.base = "" then Res.pure fs
  else if env.isdir args.base then
    { out := .ok (),
      events := [.log ("Using " ++ args.base ++ " as instance base")], fs := fs }
  else
    { out := .exited 1, events := [.log ("Not a directory: " ++ args.base)],
      fs := fs }

/-- Embedding of the read-only configuration validation (projadm.py
lines 253-258): skipped when no read-only config is given, otherwise
exit 1 unless the file exists. -/
def check_roconfig (args : Args) (fs : FS) : Res Unit :=
  if args.roconfig = "" then Res.pure fs
  else match fs args.roconfig with
  | some _ =>
    { out := .ok (),
      events := [.log ("Using " ++ args.roconfig ++ " as read-only config")],
      fs := fs }
  | none =>
    { out := .exited 1,
      events := [.log ("File " ++ args.roconfig ++ " does not exist")], fs := fs }

/-- Embedding of the uri validation (projadm.py lines 260-263). -/
def check_uri (args : Args) (fs : FS) : Res Unit :=
  if args.uri = "" then
    { out := .exited 1, events := [.log "uri of the webapp not specified"],
      fs := fs }
  else Res.pure fs

/-- Embedding of the merge-command resolution check (projadm.py lines
265-269): the resolved path comes from the `get_command` helper
(environment oracle); exit 1 when the lookup fails. -/
def check_configmerge (env : Env) (fs : FS) : Res Unit :=
  if env.getCommandResp = "" then
    { out := .exited 1,
      events := [.log "Use the --configmerge option to specify the path to the ConfigMerge script"],
      fs := fs }
  else Res.pure fs

/-- Embedding of the `for proj in args.add` loop (projadm.py lines
275-279). -/
def add_loop (doit : Bool) (projects : List String) (fs : FS) : Res Unit :=
  match projects with
  | [] => Res.pure fs
  | p :: ps => (project_add doit p fs).andThen fun fs1 => add_loop doit ps fs1

/-- Embedding of the `for proj in args.delete` loop (projadm.py lines
287-290); a raised exception stops the loop. -/
def delete_loop (doit : Bool) (env : Env) (projects : List String)
    (fs : FS) : Res Unit :=
  match projects with
  | [] => Res.pure fs
  | p :: ps =>
    (project_delete doit env p fs).andThen fun fs1 => delete_loop doit env ps fs1

/-- Embedding of the operation dispatch (projadm.py lines 275-305):
add loop then refresh, delete loop then refresh, refresh alone, or
print help and exit 1 when no operation is selected. -/
def run_op (args : Args) (env : Env) (fs : FS) : Res Unit :=
  if args.add ≠ [] then
    (add_loop args.noop args.add fs).andThen fun fs1 =>
      config_refresh args.noop env args.base args.roconfig env.getCommandResp fs1
  else if args.delete ≠ [] then
    (delete_loop args.noop env args.delete fs).andThen fun fs1 =>
      config_refresh args.noop env args.base args.roconfig env.getCommandResp fs1
  else if args.refresh then
    config_refresh args.noop env args.base args.roconfig env.getCommandResp fs
  else
    { out := .exited 1, events := [.printHelp], fs := fs }

/-- Embedding of the optional upload step (projadm.py lines 307-315):
when requested, upload the configuration file (gated on `doit`), or
exit 1 when the file does not exist. -/
def do_upload (args : Args) (env : Env) (fs : FS) : Res Unit :=
  if args.upload then
    let main_config := get_config_file args.base
    match fs main_config with
    | some _ =>
      if args.noop then
        { out := .ok (), events := [.netSetConfiguration main_config], fs := fs }
      else Res.pure fs
    | none =>
      { out := .exited 1,
        events := [.log ("file " ++ main_config ++ " does not exist")], fs := fs }
  else Res.pure fs

/-- Embedding of the `__main__` block (projadm.py lines 196-318):
validations, non-blocking lock acquisition (warn and exit 1 when the
lock is already held), operation dispatch, optional upload. -/
def main (args : Args) (env : Env) (fs : FS) : Res Unit :=
  (check_base args env fs).andThen fun fs1 =>
  (check_roconfig args fs1).andThen fun fs2 =>
  (check_uri args fs2).andThen fun fs3 =>
  (check_configmerge env fs3).andThen fun fs4 =>
  if env.lockHeld then
    { out := .exited 1, events := [.log "Already running, exiting."], fs := fs4 }
  else
    (run_op args env fs4).andThen fun fs5 => do_upload args env fs5

/-! Concrete example environments used to instantiate the theorems. -/

/-- Example filesystem: the instance base `/og` holds a configuration
file, a read-only configuration exists at `/ro`. -/
def exFS : FS := fun p =>
  if p = "/og/etc/configuration.xml" then some "<old/>"
  else if p = "/ro" then some "<ro/>"
  else none

/-- Empty filesystem. -/
def emptyFS : FS := fun _ => none

/-- Example environment: every collaborator succeeds. -/
def exEnv : Env :=
  { isdir := fun _ => true
    getCommandResp := "/bin/ConfigMerge"
    lockHeld := false
    getConfigurationResp := "<cfg/>"
    getConfigValueResp := fun _ => ["/src"]
    runCommand := fun _ => { finished := true, retcode := 0, output := "<merged/>" }
    copyFails := fun _ _ => false
    tmpCur := "/tmp/cur"
    tmpMerged := "/tmp/merged" }

/-- Example environment whose source-root lookup returns a falsy (empty
or missing) value list. -/
def exEnvNoRoot : Env :=
  { exEnv with getConfigValueResp := fun _ => [] }

/-- Example environment whose source-root lookup returns two elements,
the first with a trailing blank. -/
def exEnvTwoRoots : Env :=
  { exEnv with getConfigValueResp := fun _ => ["/src ", "/other"] }

/-- Example environment whose external command exits with code 2 and
output `boom`. -/
def exEnvCmdFail : Env :=
  { exEnv with runCommand := fun _ => { finished := true, retcode := 2, output := "boom" } }

/-- Example environment in which the lock is already held by another
instance. -/
def exEnvLocked : Env :=
  { exEnv with lockHeld := true }

/-- Example arguments: dry-run deletion of project `foo`. -/
def exArgsDryDelete : Args :=
  { debug := false, base := "/og", roconfig := "", uri := "http://x/source",
    configmerge := "", upload := false, noop := false,
    add := [], delete := ["foo"], refresh := false }

/-- Example arguments: full-run refresh. -/
def exArgsRefresh : Args :=
  { debug := false, base := "/og", roconfig := "", uri := "http://x/source",
    configmerge := "", upload := false, noop := true,
    add := [], delete := [], refresh := true }

/-! Claim theorems. -/

/-- Claim C5: an invocation of `project_delete` with an empty (missing)
project name raises the contract-violation error and performs no
service call at all: the event trace is empty, so in particular neither
the delete-project endpoint nor the source-root lookup is contacted. -/
theorem delete_empty_name_raises_without_service_call
    (doit : Bool) (env : Env) (fs : FS) :
    (project_delete doit env "" fs).out =
        .raised "invalid call to project_delete(): missing project" ∧
    (project_delete doit env "" fs).events = [] := by
  constructor <;> rfl

/-- Claim C7: running a command through `exec_command` with
`doit = true`: when the subprocess terminates abnormally or exits with
a non-zero code, the captured output is logged and the program exits
with code 1; when it succeeds, the captured standard output is
returned. -/
theorem exec_command_failure_exits_success_returns_output
    (env : Env) (cmd : List String) (msg : String) (fs : FS) :
    (((env.runCommand cmd).finished = false ∨ ¬ (env.runCommand cmd).retcode = 0) →
      (exec_command true env cmd msg fs).out = .exited 1 ∧
      Event.log (env.runCommand cmd).output ∈ (exec_command true env cmd msg fs).events) ∧
    ((env.runCommand cmd).finished = true → (env.runCommand cmd).retcode = 0 →
      (exec_command true env cmd msg fs).out = .ok (some (env.runCommand cmd).output)) := by
  constructor
  · intro h
    constructor <;> simp [exec_command, h]
  · intro h1 h2
    simp [exec_command, h1, h2]

/-- Claim C7 witness: a failing command (exit code 2, output `boom`)
makes the program exit 1 and log the output; a succeeding command
returns its captured output. -/
theorem exec_command_failure_exits_success_returns_output_witness :
    ((exec_command true exEnvCmdFail ["cm", "a", "b"] "m" exFS).out = .exited 1 ∧
      Event.log "boom" ∈ (exec_command true exEnvCmdFail ["cm", "a", "b"] "m" exFS).events) ∧
    (exec_command true exEnv ["cm", "a", "b"] "m" exFS).out = .ok (some "<merged/>") :=
  ⟨(exec_command_failure_exits_success_returns_output exEnvCmdFail
      ["cm", "a", "b"] "m" exFS).1 (by decide),
   (exec_command_failure_exits_success_returns_output exEnv
      ["cm", "a", "b"] "m" exFS).2 rfl rfl⟩

/-- Claim C9: whenever the source-root lookup succeeds, the directory
removed by a delete invocation is computed from the first element of
the returned value list only, with trailing whitespace stripped, joined
with the project name; elements after the first never influence it. -/
theorem delete_removes_only_first_value_path
    (doit : Bool) (env : Env) (project : String) (fs : FS)
    (r : String) (rest : List String)
    (hresp : env.getConfigValueResp "sourceRoot" = r :: rest) :
    ∀ p, Event.fsRmtree p ∈ (project_delete doit env project fs).events →
      p = pjoin (rstrip r) project := by
  intro p hp
  by_cases hproj : project = ""
  · simp [project_delete, hproj] at hp
  · by_cases hsr : rstrip r = "" <;>
      cases doit <;>
      simp [project_delete, hproj, hresp, hsr] at hp <;>
      exact hp

/-- Claim C9 witness: with the lookup returning the two-element list
`/src ` (trailing blank) and `/other`, the directory whose removal is
recorded in the trace equals the stripped first element joined with the
project name, the second element playing no role. -/
theorem delete_removes_only_first_value_path_witness :
    ("/src/foo" : String) = pjoin (rstrip "/src ") "foo" :=
  delete_removes_only_first_value_path true exEnvTwoRoots "foo" exFS "/src " ["/other"]
    rfl "/src/foo" (by decide)

/-- Claim C4: in a full-run delete of a non-empty project name, when
the service reports a non-empty source root the delete-project service
call happens strictly before the recursive removal of
`sourceRoot/name` (the traces show the order); and when the lookup
returns an empty or missing value the operation raises and performs no
directory removal. -/
theorem delete_service_call_precedes_source_removal
    (env : Env) (project : String) (fs : FS) (r : String) (rest : List String)
    (hproj : project ≠ "") :
    (env.getConfigValueResp "sourceRoot" = r :: rest → rstrip r ≠ "" →
      (project_delete true env project fs).events =
        [.log ("Deleting project " ++ project ++ " and its index data"),
         .netDeleteProject project,
         .netGetConfigValue "sourceRoot",
         .log ("Source root = " ++ rstrip r),
         .log ("Removing directory tree " ++ pjoin (rstrip r) project),
         .log ("Removing source code under " ++ pjoin (rstrip r) project),
         .fsRmtree (pjoin (rstrip r) project)]) ∧
    (env.getConfigValueResp "sourceRoot" = [] →
      (project_delete true env project fs).out = .raised "Could not get source root" ∧
      ∀ p, Event.fsRmtree p ∉ (project_delete true env project fs).events) := by
  constructor
  · intro hresp hsr
    simp [project_delete, hproj, hresp, hsr]
  · intro hresp
    refine ⟨?_, ?_⟩ <;> simp [project_delete, hproj, hresp]

/-- Claim C4 witness: deleting `foo` with the service reporting source
root `/src` produces the delete-project call at position one and the
removal of `/src/foo` as the final event; with a falsy lookup the
operation raises `Could not get source root`. -/
theorem delete_service_call_precedes_source_removal_witness :
    (project_delete true exEnv "foo" exFS).events =
      [.log "Deleting project foo and its index data",
       .netDeleteProject "foo",
       .netGetConfigValue "sourceRoot",
       .log ("Source root = " ++ rstrip "/src"),
       .log ("Removing directory tree " ++ pjoin (rstrip "/src") "foo"),
       .log ("Removing source code under " ++ pjoin (rstrip "/src") "foo"),
       .fsRmtree (pjoin (rstrip "/src") "foo")] ∧
    (project_delete true exEnvNoRoot "foo" exFS).out = .raised "Could not get source root" :=
  ⟨(delete_service_call_precedes_source_removal exEnv "foo" exFS "/src" []
      (by decide)).1 rfl (by decide),
   ((delete_service_call_precedes_source_removal exEnvNoRoot "foo" exFS "x" []
      (by decide)).2 rfl).1⟩

/-- Claim C10: a dry-run refresh with a read-only configuration
completes without error: the merge output write and the installation
are both gated on `doit`, so the absent merge result (the `None`
returned by the dry-run `exec_command`) is never dereferenced, and the
trace holds log lines only. -/
theorem dryrun_refresh_with_roconfig_completes
    (env : Env) (basedir roconfig configmerge : String) (fs : FS)
    (hro : roconfig ≠ "")
    (hfile : fs (get_config_file basedir) ≠ none) :
    (config_refresh false env basedir roconfig configmerge fs).out = .ok () ∧
    ∀ e ∈ (config_refresh false env basedir roconfig configmerge fs).events,
      e.isLog = true := by
  obtain ⟨c, hc⟩ := Option.ne_none_iff_exists'.mp hfile
  constructor
  · simp [config_refresh, hc, hro, temp_write, exec_command]
  · intro e he
    simp [config_refresh, hc, hro, temp_write, exec_command] at he
    rcases he with h | h | h | h <;> subst h <;> rfl

/-- Claim C10 witness: the concrete dry-run refresh with read-only
configuration `/ro` completes normally with a log-only trace. -/
theorem dryrun_refresh_with_roconfig_completes_witness :
    (config_refresh false exEnv "/og" "/ro" "cm" exFS).out = .ok () ∧
    ∀ e ∈ (config_refresh false exEnv "/og" "/ro" "cm" exFS).events,
      e.isLog = true :=
  dryrun_refresh_with_roconfig_completes exEnv "/og" "/ro" "cm" exFS
    (by decide) (by decide)

/-- Claim C2: a full-run refresh without a read-only configuration
installs exactly the fetched text, byte-for-byte, as the new content of
the destination file `basedir/etc/configuration.xml`: the text is
written to the scoped temporary file and then whole-file copied into
place, as the trace shows. -/
theorem refresh_installs_fetched_text
    (env : Env) (basedir configmerge : String) (fs : FS)
    (hcfg : env.getConfigurationResp ≠ "")
    (hfile : fs (get_config_file basedir) ≠ none)
    (hcopy : env.copyFails env.tmpCur (get_config_file basedir) = false)
    (hne : get_config_file basedir ≠ env.tmpCur) :
    (config_refresh true env basedir "" configmerge fs).out = .ok () ∧
    (config_refresh true env basedir "" configmerge fs).events =
      [.netGetConfiguration,
       .log ("Temporary file for current config: " ++ env.tmpCur),
       .fsWrite env.tmpCur env.getConfigurationResp,
       .log "Refreshing configuration",
       .log ("Copying " ++ env.tmpCur ++ " to " ++ get_config_file basedir),
       .fsCopyFile env.tmpCur (get_config_file basedir)] ∧
    (config_refresh true env basedir "" configmerge fs).fs (get_config_file basedir) =
      some env.getConfigurationResp := by
  obtain ⟨c, hc⟩ := Option.ne_none_iff_exists'.mp hfile
  refine ⟨?_, ?_, ?_⟩ <;>
    simp [config_refresh, hc, hcfg, hcopy, hne, temp_write, install_config,
          pyJoin, FS.set, FS.erase]

/-- Claim C2 witness: refreshing the concrete instance under `/og`
installs the fetched text as the new configuration file content. -/
theorem refresh_installs_fetched_text_witness :
    (config_refresh true exEnv "/og" "" "cm" exFS).out = .ok () ∧
    (config_refresh true exEnv "/og" "" "cm" exFS).events =
      [.netGetConfiguration,
       .log ("Temporary file for current config: " ++ exEnv.tmpCur),
       .fsWrite exEnv.tmpCur exEnv.getConfigurationResp,
       .log "Refreshing configuration",
       .log ("Copying " ++ exEnv.tmpCur ++ " to " ++ get_config_file "/og"),
       .fsCopyFile exEnv.tmpCur (get_config_file "/og")] ∧
    (config_refresh true exEnv "/og" "" "cm" exFS).fs (get_config_file "/og") =
      some exEnv.getConfigurationResp :=
  refresh_installs_fetched_text exEnv "/og" "cm" exFS
    (by decide) (by decide) rfl (by decide)

/-- Claim C3: a full-run refresh with a read-only configuration invokes
the external merge tool with the read-only path as its first argument
and the temporary file holding the fetched text as its second argument
(the trace shows the fetched text written to that file beforehand), and
installs exactly the captured merge-tool standard output as the new
content of the destination file. -/
theorem refresh_with_roconfig_installs_merge_output
    (env : Env) (basedir roconfig configmerge : String) (fs : FS) (merged : String)
    (hro : roconfig ≠ "")
    (hcfg : env.getConfigurationResp ≠ "")
    (hfile : fs (get_config_file basedir) ≠ none)
    (hcmd : env.runCommand [configmerge, roconfig, env.tmpCur] =
      { finished := true, retcode := 0, output := merged })
    (hcopy : env.copyFails env.tmpMerged (get_config_file basedir) = false)
    (hne1 : get_config_file basedir ≠ env.tmpCur)
    (hne2 : get_config_file basedir ≠ env.tmpMerged) :
    (config_refresh true env basedir roconfig configmerge fs).out = .ok () ∧
    (config_refresh true env basedir roconfig configmerge fs).events =
      [.netGetConfiguration,
       .log ("Temporary file for current config: " ++ env.tmpCur),
       .fsWrite env.tmpCur env.getConfigurationResp,
       .log "Refreshing configuration (merging with read-only config)",
       .subprocessExec [configmerge, roconfig, env.tmpCur],
       .log ("Temporary file for merged config: " ++ env.tmpMerged),
       .fsWrite env.tmpMerged merged,
       .log ("Copying " ++ env.tmpMerged ++ " to " ++ get_config_file basedir),
       .fsCopyFile env.tmpMerged (get_config_file basedir)] ∧
    (config_refresh true env basedir roconfig configmerge fs).fs (get_config_file basedir) =
      some merged := by
  obtain ⟨c, hc⟩ := Option.ne_none_iff_exists'.mp hfile
  refine ⟨?_, ?_, ?_⟩ <;>
    simp [config_refresh, hc, hcfg, hro, hcmd, hcopy, hne1, hne2, temp_write,
          install_config, exec_command, pyJoin, FS.set, FS.erase]

/-- Claim C3 witness: refreshing the concrete instance under `/og` with
read-only configuration `/ro` runs the merge tool on `/ro` and the
staged fetch and installs its captured output. -/
theorem refresh_with_roconfig_installs_merge_output_witness :
    (config_refresh true exEnv "/og" "/ro" "cm" exFS).out = .ok () ∧
    (config_refresh true exEnv "/og" "/ro" "cm" exFS).events =
      [.netGetConfiguration,
       .log ("Temporary file for current config: " ++ exEnv.tmpCur),
       .fsWrite exEnv.tmpCur exEnv.getConfigurationResp,
       .log "Refreshing configuration (merging with read-only config)",
       .subprocessExec ["cm", "/ro", exEnv.tmpCur],
       .log ("Temporary file for merged config: " ++ exEnv.tmpMerged),
       .fsWrite exEnv.tmpMerged "<merged/>",
       .log ("Copying " ++ exEnv.tmpMerged ++ " to " ++ get_config_file "/og"),
       .fsCopyFile exEnv.tmpMerged (get_config_file "/og")] ∧
    (config_refresh true exEnv "/og" "/ro" "cm" exFS).fs (get_config_file "/og") =
      some "<merged/>" :=
  refresh_with_roconfig_installs_merge_output exEnv "/og" "/ro" "cm" exFS "<merged/>"
    (by decide) (by decide) (by decide) rfl rfl (by decide) (by decide)

/-- Helper: every copy event produced by `install_config` targets its
destination argument. -/
theorem install_config_copy_target (doit : Bool) (env : Env) (s d : String)
    (fs : FS) (src dst : String)
    (h : Event.fsCopyFile src dst ∈ (install_config doit env s d fs).events) :
    dst = d := by
  cases doit
  · simp [install_config] at h
  · unfold install_config at h
    simp only [if_true] at h
    split at h
    · simp at h
      exact h.2
    · split at h
      · simp at h
        exact h.2
      · simp at h
        exact h.2

/-- Claim C6: a refresh exits with code 1 when the configuration file
is absent, before any fetch from the service; and every install in a
refresh targets exactly the join of the base directory with `etc` and
`configuration.xml`. -/
theorem refresh_requires_existing_config_and_fixed_path
    (doit : Bool) (env : Env) (basedir roconfig configmerge : String) (fs : FS) :
    (fs (get_config_file basedir) = none →
      (config_refresh doit env basedir roconfig configmerge fs).out = .exited 1 ∧
      Event.netGetConfiguration ∉
        (config_refresh doit env basedir roconfig configmerge fs).events) ∧
    (∀ src dst,
      Event.fsCopyFile src dst ∈
        (config_refresh doit env basedir roconfig configmerge fs).events →
      dst = pjoin (pjoin basedir "etc") "configuration.xml") := by
  constructor
  · intro hnone
    constructor <;> simp [config_refresh, hnone]
  · intro src dst h
    rcases hm : fs (get_config_file basedir) with _ | c
    · simp [config_refresh, hm] at h
    · cases doit
      · by_cases hro : roconfig = "" <;>
          simp [config_refresh, hm, hro, temp_write, exec_command,
                install_config] at h
      · by_cases hresp : env.getConfigurationResp = ""
        · simp [config_refresh, hm, hresp] at h
        · by_cases hro : roconfig = ""
          · rcases hcp : env.copyFails env.tmpCur (get_config_file basedir) with _ | _
            · simp [config_refresh, hm, hresp, hro, hcp, temp_write,
                    install_config, pyJoin, FS.set] at h
              exact h.2
            · simp [config_refresh, hm, hresp, hro, hcp, temp_write,
                    install_config, pyJoin, FS.set] at h
              exact h.2
          · rcases hrc : env.runCommand [configmerge, roconfig, env.tmpCur] with ⟨fin, rc, out⟩
            cases fin
            · simp [config_refresh, hm, hresp, hro, hrc, temp_write,
                    exec_command, pyJoin] at h
            · by_cases hrc0 : rc = 0
              · rcases hcp : env.copyFails env.tmpMerged (get_config_file basedir) with _ | _
                · simp [config_refresh, hm, hresp, hro, hrc, hrc0, hcp,
                        temp_write, install_config, exec_command, pyJoin,
                        FS.set] at h
                  exact h.2
                · simp [config_refresh, hm, hresp, hro, hrc, hrc0, hcp,
                        temp_write, install_config, exec_command, pyJoin,
                        FS.set] at h
                  exact h.2
              · simp [config_refresh, hm, hresp, hro, hrc, hrc0, temp_write,
                      exec_command, pyJoin] at h

/-- Claim C6 witness: with an empty filesystem the refresh exits 1
without fetching; the copy event of the concrete successful refresh
targets the join of `/og` with `etc` and `configuration.xml`. -/
theorem refresh_requires_existing_config_and_fixed_path_witness :
    ((config_refresh true exEnv "/og" "" "cm" emptyFS).out = .exited 1 ∧
      Event.netGetConfiguration ∉
        (config_refresh true exEnv "/og" "" "cm" emptyFS).events) ∧
    ("/og/etc/configuration.xml" : String) = pjoin (pjoin "/og" "etc") "configuration.xml" :=
  ⟨(refresh_requires_existing_config_and_fixed_path true exEnv "/og" "" "cm" emptyFS).1 rfl,
   (refresh_requires_existing_config_and_fixed_path true exEnv "/og" "" "cm" exFS).2
     "/tmp/cur" "/og/etc/configuration.xml" (by decide)⟩

/-- Helper: a property of all events of both parts holds for all events
of their sequencing. -/
theorem forall_events_andThen {P : Event → Prop} {r : Res Unit} {f : FS → Res Unit}
    (h1 : ∀ e ∈ r.events, P e) (h2 : ∀ g, ∀ e ∈ (f g).events, P e) :
    ∀ e ∈ (r.andThen f).events, P e := by
  intro e he
  unfold Res.andThen at he
  split at he
  · have he2 : e ∈ r.events ++ (f r.fs).events := he
    rcases List.mem_append.mp he2 with h | h
    · exact h1 e h
    · exact h2 _ e h
  · exact h1 e he
  · exact h1 e he

/-- Helper: sequencing after a normal return concatenates the traces. -/
theorem andThen_events (r : Res Unit) (f : FS → Res Unit) (h : r.out = .ok ()) :
    (r.andThen f).events = r.events ++ (f r.fs).events := by
  unfold Res.andThen
  rw [h]

/-- Helper: the outcome of a sequencing after a normal return is the
outcome of the continuation. -/
theorem andThen_out (r : Res Unit) (f : FS → Res Unit) (h : r.out = .ok ()) :
    (r.andThen f).out = (f r.fs).out := by
  unfold Res.andThen
  rw [h]

/-- Helper: the base-directory check only logs. -/
theorem check_base_events_logs (args : Args) (env : Env) (fs : FS) :
    ∀ e ∈ (check_base args env fs).events, e.isLog = true := by
  unfold check_base
  split
  · simp [Res.pure]
  · split <;> simp [Event.isLog]

/-- Helper: the read-only configuration check only logs. -/
theorem check_roconfig_events_logs (args : Args) (fs : FS) :
    ∀ e ∈ (check_roconfig args fs).events, e.isLog = true := by
  unfold check_roconfig
  split
  · simp [Res.pure]
  · split <;> simp [Event.isLog]

/-- Helper: the uri check only logs. -/
theorem check_uri_events_logs (args : Args) (fs : FS) :
    ∀ e ∈ (check_uri args fs).events, e.isLog = true := by
  unfold check_uri
  split <;> simp [Res.pure, Event.isLog]

/-- Helper: the merge-command resolution check only logs. -/
theorem check_configmerge_events_logs (env : Env) (fs : FS) :
    ∀ e ∈ (check_configmerge env fs).events, e.isLog = true := by
  unfold check_configmerge
  split <;> simp [Res.pure, Event.isLog]

/-- Helper: the base-directory check passes when the base is falsy or a
directory. -/
theorem check_base_out_ok (args : Args) (env : Env) (fs : FS)
    (h : args.base = "" ∨ env.isdir args.base = true) :
    (check_base args env fs).out = .ok () := by
  rcases h with h | h
  · simp [check_base, h, Res.pure]
  · unfold check_base
    split
    · rfl
    · simp [h]

/-- Helper: the read-only configuration check passes when no read-only
configuration is given or the file exists. -/
theorem check_roconfig_out_ok (args : Args) (fs : FS)
    (h : args.roconfig = "" ∨ fs args.roconfig ≠ none) :
    (check_roconfig args fs).out = .ok () := by
  rcases h with h | h
  · simp [check_roconfig, h, Res.pure]
  · obtain ⟨c, hc⟩ := Option.ne_none_iff_exists'.mp h
    unfold check_roconfig
    split
    · rfl
    · simp [hc]

/-- Helper: the uri check passes when the uri is non-empty. -/
theorem check_uri_out_ok (args : Args) (fs : FS) (h : args.uri ≠ "") :
    (check_uri args fs).out = .ok () := by
  simp [check_uri, h, Res.pure]

/-- Helper: the merge-command check passes when the lookup succeeds. -/
theorem check_configmerge_out_ok (env : Env) (fs : FS)
    (h : env.getCommandResp ≠ "") :
    (check_configmerge env fs).out = .ok () := by
  simp [check_configmerge, h, Res.pure]

/-- Helper: validations never change the filesystem. -/
theorem check_base_fs (args : Args) (env : Env) (fs : FS) :
    (check_base args env fs).fs = fs := by
  unfold check_base
  split
  · rfl
  · split <;> rfl

/-- Helper: validations never change the filesystem. -/
theorem check_roconfig_fs (args : Args) (fs : FS) :
    (check_roconfig args fs).fs = fs := by
  unfold check_roconfig
  split
  · rfl
  · split <;> rfl

/-- Helper: validations never change the filesystem. -/
theorem check_uri_fs (args : Args) (fs : FS) :
    (check_uri args fs).fs = fs := by
  unfold check_uri
  split <;> rfl

/-- Helper: validations never change the filesystem. -/
theorem check_configmerge_fs (env : Env) (fs : FS) :
    (check_configmerge env fs).fs = fs := by
  unfold check_configmerge
  split <;> rfl

/-- Claim C8: when every validation passes and the lock is already held
by another instance, the program logs the warning and exits with status
1, and its whole trace consists of log lines only: no add, delete,
refresh or upload operation is performed. -/
theorem lock_held_warns_exits_without_operations
    (args : Args) (env : Env) (fs : FS)
    (hlock : env.lockHeld = true)
    (hbase : args.base = "" ∨ env.isdir args.base = true)
    (hro : args.roconfig = "" ∨ fs args.roconfig ≠ none)
    (huri : args.uri ≠ "")
    (hcm : env.getCommandResp ≠ "") :
    (main args env fs).out = .exited 1 ∧
    Event.log "Already running, exiting." ∈ (main args env fs).events ∧
    ∀ e ∈ (main args env fs).events, e.isLog = true := by
  have h1 := check_base_out_ok args env fs hbase
  refine ⟨?_, ?_, ?_⟩
  · unfold main
    rw [andThen_out _ _ h1, check_base_fs,
        andThen_out _ _ (check_roconfig_out_ok args fs hro), check_roconfig_fs,
        andThen_out _ _ (check_uri_out_ok args fs huri), check_uri_fs,
        andThen_out _ _ (check_configmerge_out_ok env fs hcm), check_configmerge_fs]
    simp [hlock]
  · unfold main
    rw [andThen_events _ _ h1, check_base_fs,
        andThen_events _ _ (check_roconfig_out_ok args fs hro), check_roconfig_fs,
        andThen_events _ _ (check_uri_out_ok args fs huri), check_uri_fs,
        andThen_events _ _ (check_configmerge_out_ok env fs hcm), check_configmerge_fs]
    simp [hlock]
  · intro e he
    unfold main at he
    refine forall_events_andThen (check_base_events_logs args env fs)
      (fun g1 => forall_events_andThen (check_roconfig_events_logs args g1)
        (fun g2 => forall_events_andThen (check_uri_events_logs args g2)
          (fun g3 => forall_events_andThen (check_configmerge_events_logs env g3)
            (fun g4 => ?_)))) e he
    simp [hlock, Event.isLog]

/-- Claim C8 witness: the concrete refresh invocation against a held
lock exits 1, logs the warning, and performs no operation. -/
theorem lock_held_warns_exits_without_operations_witness :
    (main exArgsRefresh exEnvLocked exFS).out = .exited 1 ∧
    Event.log "Already running, exiting." ∈ (main exArgsRefresh exEnvLocked exFS).events ∧
    ∀ e ∈ (main exArgsRefresh exEnvLocked exFS).events, e.isLog = true :=
  lock_held_warns_exits_without_operations exArgsRefresh exEnvLocked exFS rfl
    (Or.inr rfl) (Or.inl rfl) (by decide) (by decide)

/-- Helper: a dry-run `project_add` only logs. -/
theorem project_add_dry_events_logs (p : String) (fs : FS) :
    ∀ e ∈ (project_add false p fs).events, e.isLog = true := by
  simp [project_add, Event.isLog]

/-- Helper: a dry-run `project_delete` emits only log lines and the
read-only source-root lookup. -/
theorem project_delete_dry_events_benign (env : Env) (p : String) (fs : FS) :
    ∀ e ∈ (project_delete false env p fs).events,
      e.isLog = true ∨ e = .netGetConfigValue "sourceRoot" := by
  by_cases hp : p = ""
  · simp [project_delete, hp]
  · rcases hr : env.getConfigValueResp "sourceRoot" with _ | ⟨r, rest⟩
    · simp [project_delete, hp, hr, Event.isLog]
    · by_cases hsr : rstrip r = "" <;>
        simp [project_delete, hp, hr, hsr, Event.isLog]

/-- Helper: a dry-run add loop only logs. -/
theorem add_loop_dry_events_logs (ps : List String) (fs : FS) :
    ∀ e ∈ (add_loop false ps fs).events, e.isLog = true := by
  induction ps generalizing fs with
  | nil => simp [add_loop, Res.pure]
  | cons p ps ih =>
    intro e he
    unfold add_loop at he
    exact forall_events_andThen (project_add_dry_events_logs p fs)
      (fun g => ih g) e he

/-- Helper: a dry-run delete loop emits only log lines and source-root
lookups. -/
theorem delete_loop_dry_events_benign (env : Env) (ps : List String) (fs : FS) :
    ∀ e ∈ (delete_loop false env ps fs).events,
      e.isLog = true ∨ e = .netGetConfigValue "sourceRoot" := by
  induction ps generalizing fs with
  | nil => simp [delete_loop, Res.pure]
  | cons p ps ih =>
    intro e he
    unfold delete_loop at he
    exact forall_events_andThen (project_delete_dry_events_benign env p fs)
      (fun g => ih g) e he

/-- Helper: a dry-run `config_refresh` only logs: the fetch, the
temporary-file writes, the merge-tool run and the install are all gated
on the dry-run flag. -/
theorem config_refresh_dry_events_logs (env : Env)
    (basedir roconfig configmerge : String) (fs : FS) :
    ∀ e ∈ (config_refresh false env basedir roconfig configmerge fs).events,
      e.isLog = true := by
  rcases hm : fs (get_config_file basedir) with _ | c <;>
    by_cases hro : roconfig = "" <;>
    simp [config_refresh, hm, hro, temp_write, exec_command, install_config,
          Event.isLog]

/-- Helper: a dry-run upload step only logs: the configuration upload
is gated on the dry-run flag. -/
theorem do_upload_dry_events_logs (args : Args) (env : Env) (fs : FS)
    (hnoop : args.noop = false) :
    ∀ e ∈ (do_upload args env fs).events, e.isLog = true := by
  by_cases hu : args.upload = true
  · rcases hm : fs (get_config_file args.base) with _ | c <;>
      simp [do_upload, hu, hm, hnoop, Res.pure, Event.isLog]
  · simp [do_upload, hu, Res.pure]

/-- Helper: a dry-run operation dispatch with an operation selected
emits only log lines and source-root lookups. -/
theorem run_op_dry_events_benign (args : Args) (env : Env) (fs : FS)
    (hnoop : args.noop = false)
    (hop : args.add ≠ [] ∨ args.delete ≠ [] ∨ args.refresh = true) :
    ∀ e ∈ (run_op args env fs).events,
      e.isLog = true ∨ e = .netGetConfigValue "sourceRoot" := by
  by_cases hadd : args.add = []
  · by_cases hdel : args.delete = []
    · have href : args.refresh = true := by
        rcases hop with h | h | h
        · exact absurd hadd h
        · exact absurd hdel h
        · exact h
      intro e he
      simp only [run_op, hadd, hdel, href, hnoop] at he
      simp at he
      exact Or.inl (config_refresh_dry_events_logs env args.base args.roconfig
        env.getCommandResp fs e he)
    · intro e he
      simp only [run_op, hadd, hnoop] at he
      simp [hdel] at he
      exact forall_events_andThen (delete_loop_dry_events_benign env args.delete fs)
        (fun g => fun e2 h2 => Or.inl (config_refresh_dry_events_logs env args.base
          args.roconfig env.getCommandResp g e2 h2)) e he
  · intro e he
    simp only [run_op, hnoop] at he
    simp [hadd] at he
    exact forall_events_andThen
      (fun e2 h2 => Or.inl (add_loop_dry_events_logs args.add fs e2 h2))
      (fun g => fun e2 h2 => Or.inl (config_refresh_dry_events_logs env args.base
        args.roconfig env.getCommandResp g e2 h2)) e he

/-- Claim C1 (amended): a dry-run invocation with an operation selected
performs no subprocess execution, no filesystem mutation, no mutating
network call and no configuration fetch: every event of its trace is a
log line, except that a delete operation still performs the read-only
source-root lookup against the configuration service, which is not
gated on the dry-run flag. -/
theorem dryrun_emits_only_logs_and_sourceroot_reads
    (args : Args) (env : Env) (fs : FS)
    (hnoop : args.noop = false)
    (hop : args.add ≠ [] ∨ args.delete ≠ [] ∨ args.refresh = true) :
    ∀ e ∈ (main args env fs).events,
      e.isLog = true ∨ e = .netGetConfigValue "sourceRoot" := by
  unfold main
  refine forall_events_andThen
    (fun e2 h2 => Or.inl (check_base_events_logs args env fs e2 h2))
    (fun g1 => forall_events_andThen
      (fun e2 h2 => Or.inl (check_roconfig_events_logs args g1 e2 h2))
      (fun g2 => forall_events_andThen
        (fun e2 h2 => Or.inl (check_uri_events_logs args g2 e2 h2))
        (fun g3 => forall_events_andThen
          (fun e2 h2 => Or.inl (check_configmerge_events_logs env g3 e2 h2))
          (fun g4 => ?_))))
  by_cases hl : env.lockHeld = true
  · simp [hl, Event.isLog]
  · simp only [Bool.not_eq_true] at hl
    simp only [hl, Bool.false_eq_true, if_false]
    exact forall_events_andThen (run_op_dry_events_benign args env g4 hnoop hop)
      (fun g5 => fun e2 h2 => Or.inl (do_upload_dry_events_logs args env g5 hnoop e2 h2))

/-- Claim C1 witness: the concrete dry-run delete invocation emits only
log lines and source-root lookups. -/
theorem dryrun_emits_only_logs_and_sourceroot_reads_witness :
    exArgsDryDelete.noop = false ∧
    ∀ e ∈ (main exArgsDryDelete exEnv exFS).events,
      e.isLog = true ∨ e = .netGetConfigValue "sourceRoot" :=
  ⟨rfl, dryrun_emits_only_logs_and_sourceroot_reads exArgsDryDelete exEnv exFS rfl
    (Or.inr (Or.inl (by decide)))⟩

/-- Claim C1 (counterexample): the claim as stated is false on the
code: the concrete dry-run delete invocation below performs a network
call to the configuration service, because the source-root lookup in
`project_delete` (projadm.py line 181) is not gated on the dry-run
flag; its trace is therefore not log-only. -/
theorem dryrun_not_log_only_counterexample :
    Event.netGetConfigValue "sourceRoot" ∈ (main exArgsDryDelete exEnv exFS).events ∧
    (Event.netGetConfigValue "sourceRoot").isLog = false ∧
    ¬ (∀ e ∈ (main exArgsDryDelete exEnv exFS).events, e.isLog = true) := by
  refine ⟨by decide, rfl, fun h => ?_⟩
  have := h (Event.netGetConfigValue "sourceRoot") (by decide)
  simp [Event.isLog] at this

end Projadm
